import Mathlib

/-!
Verification development for the Siegfried screening pipeline
(`Dao_of_capital.py`, `Collect_data_mini.py`, `Mark_Spitznagelf.py`).

Modelling conventions:
* Python/numpy floats are modelled exactly by `PyFloat`: a rational number,
  NaN, or a signed infinity.  Arithmetic follows numpy float semantics
  (NaN propagates; a finite nonzero value divided by zero is a signed
  infinity; `0.0 / 0.0` is NaN; comparisons involving NaN are false).
* A pandas `Series` is modelled as a name together with an ordered
  association list from string labels to `PyFloat` values; iteration over
  `series.index` is iteration over that list in order.
* Python exceptions are modelled with `Except`: `PyErr.keyErr` stands for
  `KeyError` (carrying the `FieldNotFound` diagnostic), `PyErr.otherErr`
  for every other exception (network failures and the like).
* External data sources (OpenBB statement loads, the yfinance `info`
  dictionary) are parameters of the screening functions.
-/

attribute [local semireducible] Rat.mul Rat.add Rat.sub Rat.inv Rat.ofScientific

/-- The value space of Python/numpy floating point computation, with exact
rationals in place of binary floats. -/
inductive PyFloat where
  | nan : PyFloat
  | inf : Bool → PyFloat
  | fin : ℚ → PyFloat
deriving DecidableEq

/-- Python truthiness of a float: `bool(nan)` and `bool(inf)` are true,
`bool(0.0)` is false, any other finite value is true. -/
def PyFloat.truthy : PyFloat → Bool
  | PyFloat.nan => true
  | PyFloat.inf _ => true
  | PyFloat.fin q => decide (q ≠ 0)

/-- `numpy.isnan`. -/
def PyFloat.isnan : PyFloat → Bool
  | PyFloat.nan => true
  | _ => false

/-- Negation of a float. -/
def PyFloat.neg : PyFloat → PyFloat
  | PyFloat.nan => PyFloat.nan
  | PyFloat.inf b => PyFloat.inf (!b)
  | PyFloat.fin q => PyFloat.fin (-q)

/-- Float addition (numpy semantics: NaN propagates, `inf + -inf = nan`). -/
def PyFloat.add : PyFloat → PyFloat → PyFloat
  | PyFloat.nan, _ => PyFloat.nan
  | _, PyFloat.nan => PyFloat.nan
  | PyFloat.inf a, PyFloat.inf b => if a = b then PyFloat.inf a else PyFloat.nan
  | PyFloat.inf a, PyFloat.fin _ => PyFloat.inf a
  | PyFloat.fin _, PyFloat.inf b => PyFloat.inf b
  | PyFloat.fin p, PyFloat.fin q => PyFloat.fin (p + q)

/-- Float subtraction. -/
def PyFloat.sub : PyFloat → PyFloat → PyFloat
  | PyFloat.nan, _ => PyFloat.nan
  | _, PyFloat.nan => PyFloat.nan
  | PyFloat.inf a, PyFloat.inf b => if a = b then PyFloat.nan else PyFloat.inf a
  | PyFloat.inf a, PyFloat.fin _ => PyFloat.inf a
  | PyFloat.fin _, PyFloat.inf b => PyFloat.inf (!b)
  | PyFloat.fin p, PyFloat.fin q => PyFloat.fin (p - q)

/-- Float multiplication (`inf * 0 = nan`). -/
def PyFloat.mul : PyFloat → PyFloat → PyFloat
  | PyFloat.nan, _ => PyFloat.nan
  | _, PyFloat.nan => PyFloat.nan
  | PyFloat.inf a, PyFloat.inf b => PyFloat.inf (a = b)
  | PyFloat.inf a, PyFloat.fin q =>
      if q = 0 then PyFloat.nan else PyFloat.inf (a = decide (0 < q))
  | PyFloat.fin q, PyFloat.inf b =>
      if q = 0 then PyFloat.nan else PyFloat.inf (b = decide (0 < q))
  | PyFloat.fin p, PyFloat.fin q => PyFloat.fin (p * q)

/-- Float division with numpy semantics: a nonzero finite value divided by
zero is a signed infinity (with a runtime warning, not an exception), and
`0.0 / 0.0` is NaN. -/
def PyFloat.div : PyFloat → PyFloat → PyFloat
  | PyFloat.nan, _ => PyFloat.nan
  | _, PyFloat.nan => PyFloat.nan
  | PyFloat.inf _, PyFloat.inf _ => PyFloat.nan
  | PyFloat.inf a, PyFloat.fin q =>
      if q < 0 then PyFloat.inf (!a) else PyFloat.inf a
  | PyFloat.fin _, PyFloat.inf _ => PyFloat.fin 0
  | PyFloat.fin p, PyFloat.fin q =>
      if q = 0 then (if p = 0 then PyFloat.nan else PyFloat.inf (decide (0 < p)))
      else PyFloat.fin (p / q)

/-- The strict `<` comparison on floats; any comparison with NaN is false. -/
def PyFloat.lt : PyFloat → PyFloat → Bool
  | PyFloat.nan, _ => false
  | _, PyFloat.nan => false
  | PyFloat.inf a, PyFloat.inf b => !a && b
  | PyFloat.inf a, PyFloat.fin _ => !a
  | PyFloat.fin _, PyFloat.inf b => b
  | PyFloat.fin p, PyFloat.fin q => decide (p < q)

/-- The strict `>` comparison on floats. -/
def PyFloat.gt (a b : PyFloat) : Bool := PyFloat.lt b a

/-- Sort rank used when ordering floats: `-inf`, finite values, `+inf`,
then NaN last (pandas places NaN last when sorting). -/
def PyFloat.rank : PyFloat → Nat
  | PyFloat.inf false => 0
  | PyFloat.fin _ => 1
  | PyFloat.inf true => 2
  | PyFloat.nan => 3

/-- The rational payload of a finite float, `0` otherwise. -/
def PyFloat.qval : PyFloat → ℚ
  | PyFloat.fin q => q
  | _ => 0

/-- The total order on floats used to model the ascending order produced by
`pandas.sort_values` (NaN last). -/
def PyFloat.SortLe (a b : PyFloat) : Prop :=
  PyFloat.rank a < PyFloat.rank b ∨
    (PyFloat.rank a = PyFloat.rank b ∧ PyFloat.qval a ≤ PyFloat.qval b)

instance instDecSortLe : DecidableRel PyFloat.SortLe := fun a b =>
  inferInstanceAs (Decidable (_ ∨ _))

theorem pyFloat_sortLe_total (a b : PyFloat) :
    PyFloat.SortLe a b ∨ PyFloat.SortLe b a := by
  unfold PyFloat.SortLe
  rcases Nat.lt_trichotomy (PyFloat.rank a) (PyFloat.rank b) with h | h | h
  · exact Or.inl (Or.inl h)
  · rcases le_total (PyFloat.qval a) (PyFloat.qval b) with hq | hq
    · exact Or.inl (Or.inr ⟨h, hq⟩)
    · exact Or.inr (Or.inr ⟨h.symm, hq⟩)
  · exact Or.inr (Or.inl h)

theorem pyFloat_sortLe_trans {a b c : PyFloat}
    (hab : PyFloat.SortLe a b) (hbc : PyFloat.SortLe b c) :
    PyFloat.SortLe a c := by
  unfold PyFloat.SortLe at *
  rcases hab with h1 | ⟨h1, hq1⟩
  · rcases hbc with h2 | ⟨h2, _⟩
    · exact Or.inl (h1.trans h2)
    · exact Or.inl (h2 ▸ h1)
  · rcases hbc with h2 | ⟨h2, hq2⟩
    · exact Or.inl (h1 ▸ h2)
    · exact Or.inr ⟨h1.trans h2, hq1.trans hq2⟩

/-- A pandas `Series`: a name plus an ordered label-to-value mapping. -/
structure Series where
  name : String
  entries : List (String × PyFloat)
deriving DecidableEq

/-- `series.index`, in its stable source-defined order. -/
def Series.index (s : Series) : List String := s.entries.map Prod.fst

/-- `series.get(label, default)` — lookup with a default value. -/
def Series.getD (s : Series) (label : String) (dflt : PyFloat) : PyFloat :=
  match s.entries.lookup label with
  | some v => v
  | none => dflt

/-- `series[label]` — indexing; in the pipeline it is only ever applied to
labels found by `find_index_label`, which are present in the index. -/
def Series.item (s : Series) (label : String) : PyFloat :=
  Series.getD s label PyFloat.nan

/-- Boolean list-prefix test (the empty list is a prefix of everything). -/
def listPrefixB : List Char → List Char → Bool
  | [], _ => true
  | _ :: _, [] => false
  | a :: as, b :: bs => a == b && listPrefixB as bs

/-- Boolean list-infix test. -/
def listInfixB (sub : List Char) : List Char → Bool
  | [] => listPrefixB sub []
  | c :: t => listPrefixB sub (c :: t) || listInfixB sub t

/-- Python's substring containment `k in s`. -/
def inStr (k s : String) : Bool := listInfixB k.data s.data

/-- Python's `str.lower()` (ASCII case folding suffices for field labels). -/
def pyLower (s : String) : String := ⟨s.data.map Char.toLower⟩

/-- The matching predicate of `find_index_label`: the lowercased label
contains every keyword as a substring. -/
def matchesAll (label : String) (keywords : List String) : Bool :=
  keywords.all (fun k => inStr k (pyLower label))

/-- The diagnostic emitted when no label matches: the `KeyError` names the
keyword set and the series, and the debug dump that accompanies the raise
lists the available labels. -/
structure FieldNotFound where
  keywords : List String
  seriesName : String
  availableLabels : List String
deriving DecidableEq

/-- The loop of `find_index_label`: scan labels in order, first match wins. -/
def findLabelGo (keywords : List String) (err : FieldNotFound) :
    List String → Except FieldNotFound String
  | [] => Except.error err
  | label :: rest =>
      if matchesAll label keywords then Except.ok label
      else findLabelGo keywords err rest

/-- `find_index_label(series, keywords)` from `Collect_data_mini.py` and
`Mark_Spitznagelf.py`: the first index label whose lowercase text contains
all keywords; raises `KeyError` (with a debug dump of the labels) otherwise. -/
def find_index_label (series : Series) (keywords : List String) :
    Except FieldNotFound String :=
  findLabelGo keywords
    ⟨keywords, series.name, Series.index series⟩ (Series.index series)

/-- A Python exception: a `KeyError` carrying the missing-field diagnostic,
or any other exception (modelled by a message). -/
inductive PyErr where
  | keyErr : FieldNotFound → PyErr
  | otherErr : String → PyErr
deriving DecidableEq

/-- Lift a `KeyError` raised by `find_index_label` into the general
exception type. -/
def liftKey {α : Type} : Except FieldNotFound α → Except PyErr α
  | Except.ok v => Except.ok v
  | Except.error e => Except.error (PyErr.keyErr e)

namespace Dao

/-- `CFG["TAX_RATE"]` in `Dao_of_capital.py`. -/
def CFG_TAX_RATE : ℚ := 21/100

/-- `CFG["FR_THRESHOLD"]` in `Dao_of_capital.py`. -/
def CFG_FR_THRESHOLD : ℚ := 3/4

/-- `CFG["ROIC_THRESHOLD"]` in `Dao_of_capital.py`. -/
def CFG_ROIC_THRESHOLD : ℚ := 1

/-- `CFG["POSITION_MAX_PCT"]` in `Dao_of_capital.py`. -/
def CFG_POSITION_MAX_PCT : ℚ := 15/100

/-- The invested-capital line of `Dao_of_capital.compute_roic`:
`bal.get("TotalDebt", nan) + bal.get("TotalEquity", nan) - bal.get("CashAndEquivalents", 0)`. -/
def invested_cap (bal : Series) : PyFloat :=
  PyFloat.sub
    (PyFloat.add (Series.getD bal "TotalDebt" PyFloat.nan)
      (Series.getD bal "TotalEquity" PyFloat.nan))
    (Series.getD bal "CashAndEquivalents" (PyFloat.fin 0))

/-- `Dao_of_capital.compute_roic`: NOPAT over invested capital, guarded by
Python truthiness of the denominator (`... if invested_cap else np.nan`). -/
def compute_roic (inc bal : Series) (tax_rate : ℚ) : PyFloat :=
  let nopat := PyFloat.mul (Series.getD inc "OperatingIncome" PyFloat.nan)
    (PyFloat.fin (1 - tax_rate))
  if PyFloat.truthy (invested_cap bal) then PyFloat.div nopat (invested_cap bal)
  else PyFloat.nan

/-- The net-worth line of `Dao_of_capital.compute_faustmann_ratio`. -/
def net_worth (bal : Series) : PyFloat :=
  PyFloat.sub (Series.getD bal "TotalAssets" PyFloat.nan)
    (Series.getD bal "TotalLiabilities" PyFloat.nan)

/-- `Dao_of_capital.compute_faustmann_ratio`: market cap over net worth,
guarded by Python truthiness of the denominator. -/
def compute_faustmann_ratio (mkt_cap : PyFloat) (bal : Series) : PyFloat :=
  if PyFloat.truthy (net_worth bal) then PyFloat.div mkt_cap (net_worth bal)
  else PyFloat.nan

/-- The external data sources consumed by `Dao_of_capital.py`: the three
OpenBB statement loaders and the yfinance `info` dictionary per ticker. -/
structure DaoEnv where
  income : String → Except PyErr Series
  balance : String → Except PyErr Series
  cashflow : String → Except PyErr Series
  yf_info : String → Except PyErr (List (String × PyFloat))

/-- `Dao_of_capital.get_market_cap`: `info.get("marketCap", np.nan)` with a
catch-all returning NaN on any exception. -/
def get_market_cap (env : DaoEnv) (tkr : String) : PyFloat :=
  match DaoEnv.yf_info env tkr with
  | Except.ok info =>
      match info.lookup "marketCap" with
      | some v => v
      | none => PyFloat.nan
  | Except.error _ => PyFloat.nan

/-- One row of the screener's output DataFrame. -/
structure DaoRow where
  ticker : String
  roic : PyFloat
  faustmann : PyFloat
deriving DecidableEq

/-- `SiegfriedScreener._evaluate_ticker`: load the three statements, compute
ROIC (skip on NaN), compute the Faustmann ratio (skip on NaN), apply both
threshold predicates; any exception is caught and yields `None`.  The only
exception sources are the statement loads, so a load failure yields `None`
and everything after the loads is total. -/
def evaluate_ticker (env : DaoEnv) (tkr : String) : Option DaoRow :=
  match DaoEnv.income env tkr, DaoEnv.balance env tkr, DaoEnv.cashflow env tkr with
  | Except.ok inc, Except.ok bal, Except.ok _ =>
      let roic_val := compute_roic inc bal CFG_TAX_RATE
      if PyFloat.isnan roic_val then none
      else
        let fr_val := compute_faustmann_ratio (get_market_cap env tkr) bal
        if PyFloat.isnan fr_val then none
        else
          if PyFloat.gt roic_val (PyFloat.fin CFG_ROIC_THRESHOLD) &&
              PyFloat.lt fr_val (PyFloat.fin CFG_FR_THRESHOLD)
          then some ⟨tkr, roic_val, fr_val⟩
          else none
  | _, _, _ => none

/-- The ascending-Faustmann order used by `df.sort_values("faustmann")`. -/
def rowLe (a b : DaoRow) : Prop :=
  PyFloat.SortLe (DaoRow.faustmann a) (DaoRow.faustmann b)

instance instDecRowLe : DecidableRel rowLe := fun a b =>
  inferInstanceAs (Decidable (PyFloat.SortLe _ _))

instance instTotalRowLe : IsTotal DaoRow rowLe :=
  ⟨fun a b => pyFloat_sortLe_total _ _⟩

instance instTransRowLe : IsTrans DaoRow rowLe :=
  ⟨fun _ _ _ hab hbc => pyFloat_sortLe_trans hab hbc⟩

/-- The constructor `SiegfriedScreener(universe)` stores
`list(set(universe))`: a duplicate-free list containing exactly the
universe's tickers, in an order the `set` leaves unspecified.  A list
`enum` is a possible stored value iff it satisfies this predicate. -/
def IsSetEnum (orig enum : List String) : Prop :=
  enum.Nodup ∧ ∀ t, t ∈ enum ↔ t ∈ orig

/-- `SiegfriedScreener.run` on a given enumeration of the deduplicated
universe: evaluate every ticker, drop the `None`s, sort ascending by the
Faustmann column. -/
def run (env : DaoEnv) (enum : List String) : List DaoRow :=
  List.insertionSort rowLe (enum.filterMap (evaluate_ticker env))

end Dao

namespace Mark

/-- One row of `screen_universe`'s output DataFrame. -/
structure MarkRow where
  ticker : String
  roic : PyFloat
  fr : PyFloat
deriving DecidableEq

/-- `Mark_Spitznagelf.compute_roic`: resolve the four field labels with
`find_index_label` (cash keyword list is just `["cash"]`), then
NOPAT / invested capital with a direct division. -/
def compute_roic (inc bal : Series) (tax_rate : ℚ) :
    Except FieldNotFound PyFloat := do
  let op_inc_label ← find_index_label inc ["operating", "income"]
  let debt_label ← find_index_label bal ["total", "debt"]
  let eq_label ← find_index_label bal ["total", "equity"]
  let cash_label ← find_index_label bal ["cash"]
  let nopat := PyFloat.mul (Series.item inc op_inc_label)
    (PyFloat.fin (1 - tax_rate))
  let invested := PyFloat.sub
    (PyFloat.add (Series.item bal debt_label) (Series.item bal eq_label))
    (Series.item bal cash_label)
  return PyFloat.div nopat invested

/-- `Mark_Spitznagelf.compute_faustmann`: market cap over
(total assets − total liabilities), direct division. -/
def compute_faustmann (mkt_cap : PyFloat) (bal : Series) :
    Except FieldNotFound PyFloat := do
  let assets_label ← find_index_label bal ["total", "asset"]
  let liab_label ← find_index_label bal ["total", "liabil"]
  let nw := PyFloat.sub (Series.item bal assets_label) (Series.item bal liab_label)
  return PyFloat.div mkt_cap nw

/-- The external data sources consumed by `Mark_Spitznagelf.py`. -/
structure MarkEnv where
  load_financials : String → Except PyErr (Series × Series × Series)
  yf_info : String → Except PyErr (List (String × PyFloat))

/-- `Mark_Spitznagelf.get_market_cap(ticker, as_of_date)`:
`info.get("marketCap", 0)` with no exception handling of its own; the
date argument is unused by the source. -/
def get_market_cap (env : MarkEnv) (ticker : String) (as_of_date : ℤ) :
    Except PyErr PyFloat :=
  match MarkEnv.yf_info env ticker with
  | Except.ok info =>
      Except.ok (match info.lookup "marketCap" with
        | some v => v
        | none => PyFloat.fin 0)
  | Except.error e => Except.error e

/-- The body of the second `try` block of `screen_universe`: compute ROIC,
fetch the market cap, compute the Faustmann ratio.  `KeyError`s from
`find_index_label` surface as `PyErr.keyErr`; any other exception from the
market-cap fetch surfaces as `PyErr.otherErr`. -/
def ratios (env : MarkEnv) (as_of : ℤ) (tkr : String) (inc bal : Series) :
    Except PyErr (PyFloat × PyFloat) := do
  let roic ← liftKey (compute_roic inc bal (21/100))
  let mc ← get_market_cap env tkr as_of
  let fr ← liftKey (compute_faustmann mc bal)
  return (roic, fr)

/-- One iteration of the `screen_universe` loop: a failed fundamentals load
is caught (skip, continue); a `KeyError` in the ratio block is caught
(skip, continue); any other exception in the ratio block propagates; the
threshold predicate `roic > 1.0 and fr < 0.7` gates inclusion. -/
def evalStep (env : MarkEnv) (as_of : ℤ) (tkr : String) :
    Except PyErr (Option MarkRow) :=
  match MarkEnv.load_financials env tkr with
  | Except.error _ => Except.ok none
  | Except.ok (inc, bal, _) =>
      match ratios env as_of tkr inc bal with
      | Except.error (PyErr.keyErr _) => Except.ok none
      | Except.error e => Except.error e
      | Except.ok (roic, fr) =>
          Except.ok
            (if PyFloat.gt roic (PyFloat.fin 1) &&
                PyFloat.lt fr (PyFloat.fin (7/10))
             then some ⟨tkr, roic, fr⟩ else none)

/-- The `for tkr in universe` loop of `screen_universe`, accumulating picks
in input order; an uncaught exception aborts the remaining tickers. -/
def screenGo (env : MarkEnv) (as_of : ℤ) :
    List String → List MarkRow → Except PyErr (List MarkRow)
  | [], picks => Except.ok picks
  | tkr :: rest, picks =>
      match evalStep env as_of tkr with
      | Except.error e => Except.error e
      | Except.ok none => screenGo env as_of rest picks
      | Except.ok (some row) => screenGo env as_of rest (picks ++ [row])

/-- The ascending-`fr` order used by `df.sort_values("fr")`. -/
def markRowLe (a b : MarkRow) : Prop :=
  PyFloat.SortLe (MarkRow.fr a) (MarkRow.fr b)

instance instDecMarkRowLe : DecidableRel markRowLe := fun a b =>
  inferInstanceAs (Decidable (PyFloat.SortLe _ _))

instance instTotalMarkRowLe : IsTotal MarkRow markRowLe :=
  ⟨fun a b => pyFloat_sortLe_total _ _⟩

instance instTransMarkRowLe : IsTrans MarkRow markRowLe :=
  ⟨fun _ _ _ hab hbc => pyFloat_sortLe_trans hab hbc⟩

/-- `Mark_Spitznagelf.screen_universe`, with the Wikipedia universe scrape
replaced by an explicit ticker-list argument: loop over the universe, then
sort the picks ascending by `fr`. -/
def screen_universe (env : MarkEnv) (as_of : ℤ) (tickers : List String) :
    Except PyErr (List MarkRow) :=
  match screenGo env as_of tickers [] with
  | Except.error e => Except.error e
  | Except.ok picks => Except.ok (List.insertionSort markRowLe picks)

end Mark

namespace Collect

/-- `Collect_data_mini.get_market_cap`: `info.get("marketCap", 0)`, no
exception handling of its own. -/
def get_market_cap (env : String → Except PyErr (List (String × PyFloat)))
    (ticker : String) : Except PyErr PyFloat :=
  match env ticker with
  | Except.ok info =>
      Except.ok (match info.lookup "marketCap" with
        | some v => v
        | none => PyFloat.fin 0)
  | Except.error e => Except.error e

/-- `Collect_data_mini.compute_roic`: identical to the Mark variant except
that the cash keyword set is `["cash", "equivalents"]`. -/
def compute_roic (inc bal : Series) (tax_rate : ℚ) :
    Except FieldNotFound PyFloat := do
  let op_label ← find_index_label inc ["operating", "income"]
  let debt_label ← find_index_label bal ["total", "debt"]
  let eq_label ← find_index_label bal ["total", "equity"]
  let cash_label ← find_index_label bal ["cash", "equivalents"]
  let nopat := PyFloat.mul (Series.item inc op_label) (PyFloat.fin (1 - tax_rate))
  let invested := PyFloat.sub
    (PyFloat.add (Series.item bal debt_label) (Series.item bal eq_label))
    (Series.item bal cash_label)
  return PyFloat.div nopat invested

/-- `Collect_data_mini.compute_faustmann`: market cap over net worth,
direct division. -/
def compute_faustmann (mkt_cap : PyFloat) (bal : Series) :
    Except FieldNotFound PyFloat := do
  let assets_label ← find_index_label bal ["total", "asset"]
  let liab_label ← find_index_label bal ["total", "liabil"]
  let nw := PyFloat.sub (Series.item bal assets_label) (Series.item bal liab_label)
  return PyFloat.div mkt_cap nw

end Collect

/-- Python's `int(x)` on a rational: truncation toward zero. -/
def pyInt (q : ℚ) : ℤ := if 0 ≤ q then ⌊q⌋ else ⌈q⌉

/-- An order suggested by `Portfolio.target_equal_weight`: ticker, signed
quantity delta, reference price. -/
structure Order where
  ticker : String
  qty : ℤ
  price : ℚ
deriving DecidableEq

namespace Dao

/-- `Dao_of_capital.Portfolio` state: cash plus a ticker-to-shares map
(cost basis is never read by the allocator). -/
structure Portfolio where
  cash : ℚ
  positions : List (String × ℚ)
deriving DecidableEq

/-- `Portfolio.market_value`: sum of shares times current price over all
positions; prices come from the external price source. -/
def Portfolio.market_value (p : Portfolio) (price : String → ℚ) : ℚ :=
  List.foldl (fun mv pos => mv + pos.2 * price pos.1) 0 p.positions

/-- `self.positions.get(row.ticker, {}).get("shares", 0)`. -/
def heldShares (p : Portfolio) (tkr : String) : ℚ :=
  match p.positions.lookup tkr with
  | some sh => sh
  | none => 0

/-- `Portfolio.target_equal_weight`: on an empty pick list produce no
orders, otherwise allocate `min(POSITION_MAX_PCT, 1/n)` of
`cash + market_value` per pick, floor-divide by the price, subtract the
held shares, and record an order only when the delta is nonzero. -/
def Portfolio.target_equal_weight (p : Portfolio) (price : String → ℚ)
    (picks : List String) : List Order :=
  if picks = [] then []
  else
    let n := picks.length
    let alloc_per := min CFG_POSITION_MAX_PCT (1 / (n : ℚ))
    let target_dollars := alloc_per * (p.cash + Portfolio.market_value p price)
    List.foldl
      (fun orders tkr =>
        let pr := price tkr
        let qty_target : ℤ := ⌊target_dollars / pr⌋
        let held := heldShares p tkr
        let delta : ℚ := (qty_target : ℚ) - held
        if delta ≠ 0 then orders ++ [⟨tkr, pyInt delta, pr⟩] else orders)
      [] picks

end Dao

/-- Modelled from the spec (§4.4 Portfolio Allocator), for comparison with
`Dao.Portfolio.target_equal_weight`: if the candidate set is empty produce
no orders; otherwise the allocation fraction is `min(position_max_pct, 1/n)`,
target dollars per position is that fraction of cash plus current market
value, target shares is the floor of target dollars over the price, and an
order is emitted exactly when `target_shares - held` is nonzero. -/
def specAllocate (position_max_pct : ℚ) (cash mv : ℚ) (held : String → ℚ)
    (price : String → ℚ) (picks : List String) : List Order :=
  if picks = [] then []
  else
    let n := picks.length
    let frac := min position_max_pct (1 / (n : ℚ))
    let target_dollars := frac * (cash + mv)
    picks.filterMap (fun tkr =>
      let target_shares : ℤ := ⌊target_dollars / price tkr⌋
      let delta : ℚ := (target_shares : ℚ) - held tkr
      if delta ≠ 0 then some ⟨tkr, pyInt delta, price tkr⟩ else none)

/-! ### Concrete statement data used by witnesses and counterexamples -/

/-- An income statement with the given operating income. -/
def mkInc (oi : ℚ) : Series := ⟨"inc", [("OperatingIncome", PyFloat.fin oi)]⟩

/-- An income statement whose operating income is missing (NaN) in the data. -/
def mkIncNaN : Series := ⟨"inc", [("OperatingIncome", PyFloat.nan)]⟩

/-- A balance sheet with debt, equity and cash fields only. -/
def mkBal (d e ch : ℚ) : Series :=
  ⟨"bal", [("TotalDebt", PyFloat.fin d), ("TotalEquity", PyFloat.fin e),
    ("CashAndEquivalents", PyFloat.fin ch)]⟩

/-- A balance sheet with assets and liabilities fields only. -/
def mkBalAL (a l : ℚ) : Series :=
  ⟨"bal", [("TotalAssets", PyFloat.fin a), ("TotalLiabilities", PyFloat.fin l)]⟩

/-- A balance sheet with all five fields the pipeline reads. -/
def mkBalFull (d e ch a l : ℚ) : Series :=
  ⟨"bal", [("TotalDebt", PyFloat.fin d), ("TotalEquity", PyFloat.fin e),
    ("CashAndEquivalents", PyFloat.fin ch), ("TotalAssets", PyFloat.fin a),
    ("TotalLiabilities", PyFloat.fin l)]⟩

/-! ### Evaluation lemmas for the ratio functions -/

theorem pyFloat_div_fin_fin {p q : ℚ} (h : q ≠ 0) :
    PyFloat.div (PyFloat.fin p) (PyFloat.fin q) = PyFloat.fin (p / q) := by
  simp [PyFloat.div, h]

theorem pyFloat_isnan_true {a : PyFloat} (h : PyFloat.isnan a = true) :
    a = PyFloat.nan := by
  cases a <;> simp [PyFloat.isnan] at h ⊢

theorem pyFloat_lt_true_not_nan {a b : PyFloat} (h : PyFloat.lt a b = true) :
    PyFloat.isnan a = false ∧ PyFloat.isnan b = false := by
  cases a <;> cases b <;> simp [PyFloat.lt, PyFloat.isnan] at h ⊢

theorem pyFloat_gt_true_not_nan {a b : PyFloat} (h : PyFloat.gt a b = true) :
    PyFloat.isnan a = false ∧ PyFloat.isnan b = false := by
  have := pyFloat_lt_true_not_nan (a := b) (b := a) h
  exact ⟨this.2, this.1⟩

theorem dao_invested_cap_mkBal (d e ch : ℚ) :
    Dao.invested_cap (mkBal d e ch) = PyFloat.fin (d + e - ch) := rfl

theorem dao_roic_eval (oi d e ch t : ℚ) (h : d + e - ch ≠ 0) :
    Dao.compute_roic (mkInc oi) (mkBal d e ch) t
      = PyFloat.fin (oi * (1 - t) / (d + e - ch)) := by
  unfold Dao.compute_roic
  rw [dao_invested_cap_mkBal]
  simp only [PyFloat.truthy, ne_eq, h, not_false_eq_true, decide_True, if_true]
  exact pyFloat_div_fin_fin h

theorem mark_roic_eval (oi d e ch t : ℚ) :
    Mark.compute_roic (mkInc oi) (mkBal d e ch) t
      = Except.ok (PyFloat.div (PyFloat.fin (oi * (1 - t)))
          (PyFloat.fin (d + e - ch))) := rfl

theorem dao_net_worth_mkBalAL (a l : ℚ) :
    Dao.net_worth (mkBalAL a l) = PyFloat.fin (a - l) := rfl

theorem dao_faustmann_eval (m a l : ℚ) (h : a - l ≠ 0) :
    Dao.compute_faustmann_ratio (PyFloat.fin m) (mkBalAL a l)
      = PyFloat.fin (m / (a - l)) := by
  unfold Dao.compute_faustmann_ratio
  rw [dao_net_worth_mkBalAL]
  simp only [PyFloat.truthy, ne_eq, h, not_false_eq_true, decide_True, if_true]
  exact pyFloat_div_fin_fin h

theorem mark_faustmann_eval (m a l : ℚ) :
    Mark.compute_faustmann (PyFloat.fin m) (mkBalAL a l)
      = Except.ok (PyFloat.div (PyFloat.fin m) (PyFloat.fin (a - l))) := rfl

/-! ## Claim C1 -/

/-- Claim C1, counterexample: with total debt 50, total equity 50 and cash
100, invested capital is zero, yet `compute_roic` in `Mark_Spitznagelf.py`
and in `Collect_data_mini.py` returns positive infinity (numpy division by
zero), not an undefined/missing result — so the claim fails for two of the
three cited implementations. -/
theorem c1_counterexample :
    Mark.compute_roic (mkInc 100) (mkBal 50 50 100) (21/100)
        = Except.ok (PyFloat.inf true) ∧
    Collect.compute_roic (mkInc 100) (mkBal 50 50 100) (21/100)
        = Except.ok (PyFloat.inf true) ∧
    PyFloat.inf true ≠ PyFloat.nan :=
  ⟨rfl, rfl, by decide⟩

/-- Claim C1, amended: `Dao_of_capital.compute_roic` does implement the
policy — whenever invested capital is zero it returns NaN
(undefined/missing), not infinity and not an exception; the duplicate
`compute_roic` in `Collect_data_mini.py` and `Mark_Spitznagelf.py` instead
divides directly and can return infinity. -/
theorem c1_amended_theorem (inc bal : Series) (t : ℚ)
    (h : Dao.invested_cap bal = PyFloat.fin 0) :
    Dao.compute_roic inc bal t = PyFloat.nan := by
  unfold Dao.compute_roic
  rw [h]
  simp [PyFloat.truthy]

/-- Witness for the amended C1 at a concrete zero-invested-capital input. -/
theorem c1_amended_witness :
    Dao.compute_roic (mkInc 100) (mkBal 50 50 100) (21/100) = PyFloat.nan :=
  c1_amended_theorem (mkInc 100) (mkBal 50 50 100) (21/100) rfl

/-! ## Claim C7 -/

/-- Claim C7, counterexample: with total assets equal to total liabilities
(both 100) and market cap 5, `compute_faustmann` in `Mark_Spitznagelf.py`
and in `Collect_data_mini.py` returns positive infinity (numpy division by
zero), not an undefined/missing result. -/
theorem c7_counterexample :
    Mark.compute_faustmann (PyFloat.fin 5) (mkBalAL 100 100)
        = Except.ok (PyFloat.inf true) ∧
    Collect.compute_faustmann (PyFloat.fin 5) (mkBalAL 100 100)
        = Except.ok (PyFloat.inf true) ∧
    PyFloat.inf true ≠ PyFloat.nan :=
  ⟨rfl, rfl, by decide⟩

/-- Claim C7, amended: `Dao_of_capital.compute_faustmann_ratio` returns NaN
(undefined, without raising) whenever net worth is zero — in particular when
total assets equal total liabilities; and for positive net worth with
market cap below it, both the Dao and the Mark variant return a ratio
strictly less than 1.  The Mark/Collect variants do not implement the
zero-net-worth policy (see the counterexample). -/
theorem c7_amended_theorem :
    (∀ (mkt : PyFloat) (bal : Series), Dao.net_worth bal = PyFloat.fin 0 →
        Dao.compute_faustmann_ratio mkt bal = PyFloat.nan) ∧
    (∀ m a l : ℚ, 0 < a - l → m < a - l →
        Dao.compute_faustmann_ratio (PyFloat.fin m) (mkBalAL a l)
            = PyFloat.fin (m / (a - l)) ∧ m / (a - l) < 1) ∧
    (∀ m a l : ℚ, 0 < a - l → m < a - l →
        Mark.compute_faustmann (PyFloat.fin m) (mkBalAL a l)
            = Except.ok (PyFloat.fin (m / (a - l))) ∧ m / (a - l) < 1) := by
  refine ⟨?_, ?_, ?_⟩
  · intro mkt bal h
    unfold Dao.compute_faustmann_ratio
    rw [h]
    simp [PyFloat.truthy]
  · intro m a l hpos hlt
    refine ⟨dao_faustmann_eval m a l hpos.ne', ?_⟩
    exact (div_lt_one hpos).mpr hlt
  · intro m a l hpos hlt
    refine ⟨?_, (div_lt_one hpos).mpr hlt⟩
    rw [mark_faustmann_eval]
    rw [pyFloat_div_fin_fin hpos.ne']

/-- Witness for the amended C7: assets 100 = liabilities 100 gives NaN for the
Dao variant; assets 150, liabilities 50, market cap 30 gives ratio 3/10 < 1. -/
theorem c7_amended_witness :
    Dao.compute_faustmann_ratio (PyFloat.fin 5) (mkBalAL 100 100) = PyFloat.nan ∧
    (Dao.compute_faustmann_ratio (PyFloat.fin 30) (mkBalAL 150 50)
        = PyFloat.fin ((30 : ℚ) / (150 - 50)) ∧ (30 : ℚ) / (150 - 50) < 1) ∧
    (Mark.compute_faustmann (PyFloat.fin 30) (mkBalAL 150 50)
        = Except.ok (PyFloat.fin ((30 : ℚ) / (150 - 50))) ∧ (30 : ℚ) / (150 - 50) < 1) :=
  ⟨c7_amended_theorem.1 (PyFloat.fin 5) (mkBalAL 100 100) rfl,
   c7_amended_theorem.2.1 30 150 50 (by norm_num) (by norm_num),
   c7_amended_theorem.2.2 30 150 50 (by norm_num) (by norm_num)⟩

/-! ## Claim C9 -/

/-- Claim C9: `computeROIC` is invariant under scaling all monetary inputs
(operating income, total debt, total equity, cash) by the same positive
constant, for inputs with nonzero invested capital; proved for the pure
`Dao_of_capital.compute_roic` and for `Mark_Spitznagelf.compute_roic`. -/
theorem c9_theorem (c oi d e ch t : ℚ) (hc : 0 < c) (hic : d + e - ch ≠ 0) :
    Dao.compute_roic (mkInc (c * oi)) (mkBal (c * d) (c * e) (c * ch)) t
        = Dao.compute_roic (mkInc oi) (mkBal d e ch) t ∧
    Mark.compute_roic (mkInc (c * oi)) (mkBal (c * d) (c * e) (c * ch)) t
        = Mark.compute_roic (mkInc oi) (mkBal d e ch) t := by
  have hic2 : c * d + c * e - c * ch ≠ 0 := by
    intro h0
    apply hic
    have : c * (d + e - ch) = 0 := by ring_nf; ring_nf at h0; exact h0
    rcases mul_eq_zero.mp this with hcz | hz
    · exact absurd hcz hc.ne'
    · exact hz
  have key : c * oi * (1 - t) / (c * d + c * e - c * ch)
      = oi * (1 - t) / (d + e - ch) := by
    rw [show c * oi * (1 - t) = c * (oi * (1 - t)) by ring,
      show c * d + c * e - c * ch = c * (d + e - ch) by ring,
      mul_div_mul_left _ _ hc.ne']
  constructor
  · rw [dao_roic_eval _ _ _ _ _ hic2, dao_roic_eval _ _ _ _ _ hic, key]
  · rw [mark_roic_eval, mark_roic_eval,
      pyFloat_div_fin_fin hic2, pyFloat_div_fin_fin hic, key]

/-- Witness for C9 at concrete inputs (scale factor 2). -/
theorem c9_witness :
    Dao.compute_roic (mkInc (2 * 10)) (mkBal (2 * 5) (2 * 6) (2 * 3)) (21/100)
        = Dao.compute_roic (mkInc 10) (mkBal 5 6 3) (21/100) ∧
    Mark.compute_roic (mkInc (2 * 10)) (mkBal (2 * 5) (2 * 6) (2 * 3)) (21/100)
        = Mark.compute_roic (mkInc 10) (mkBal 5 6 3) (21/100) :=
  c9_theorem 2 10 5 6 3 (21/100) (by norm_num) (by norm_num)

/-! ## Claim C3 -/

theorem foldl_if_append {α β : Type} (c : α → Prop) [DecidablePred c] (o : α → β) :
    ∀ (l : List α) (acc : List β),
      List.foldl (fun acc2 t => if c t then acc2 ++ [o t] else acc2) acc l
        = acc ++ l.filterMap (fun t => if c t then some (o t) else none) := by
  intro l
  induction l with
  | nil => intro acc; simp
  | cons a t ih =>
      intro acc
      by_cases h : c a <;>
        simp [List.filterMap_cons, h, ih, List.append_assoc]

/-- Claim C3: `Portfolio.target_equal_weight` computes exactly the
spec's allocation — an empty candidate set yields no orders, and otherwise
each candidate's order quantity is
`floor(min(position_max_pct, 1/n) * (cash + market value) / price) - held`,
emitted only when nonzero; in particular with 100000 cash, no positions,
two candidates and price 100 the suggested order is +150 shares each. -/
theorem c3_theorem :
    (∀ (p : Dao.Portfolio) (price : String → ℚ) (picks : List String),
        Dao.Portfolio.target_equal_weight p price picks
          = specAllocate Dao.CFG_POSITION_MAX_PCT p.cash
              (Dao.Portfolio.market_value p price) (Dao.heldShares p) price picks) ∧
    Dao.Portfolio.target_equal_weight ⟨100000, []⟩ (fun _ => 100) ["A", "B"]
        = [⟨"A", 150, 100⟩, ⟨"B", 150, 100⟩] := by
  constructor
  · intro p price picks
    unfold Dao.Portfolio.target_equal_weight specAllocate
    by_cases h : picks = []
    · simp [h]
    · simp only [if_neg h]
      exact (foldl_if_append _ _ picks []).trans (by simp)
  · decide

/-! ## Claim C4 -/

theorem findLabelGo_eq_find (kws : List String) (err : FieldNotFound) :
    ∀ ls : List String,
      findLabelGo kws err ls
        = match ls.find? (fun lb => matchesAll lb kws) with
          | some l => Except.ok l
          | none => Except.error err := by
  intro ls
  induction ls with
  | nil => rfl
  | cons a t ih =>
      by_cases h : matchesAll a kws = true <;>
        simp [findLabelGo, List.find?_cons, h, ih]

/-- Claim C4: `find_index_label` returns the first label, in the source's
stable enumeration order, whose case-insensitive text contains all
keywords (so the value of that label is the one the callers read); when no
label matches it fails with a `KeyError` diagnostic identifying the
keyword set, the series and its available labels.  The function reads the
source and never mutates it (it is pure in this embedding). -/
theorem c4_theorem :
    (∀ (s : Series) (kws : List String) (l : String),
        (Series.index s).find? (fun lb => matchesAll lb kws) = some l →
        find_index_label s kws = Except.ok l) ∧
    (∀ (s : Series) (kws : List String) (l : String),
        (Series.index s).find? (fun lb => matchesAll lb kws) = some l →
        Except.map (Series.item s) (find_index_label s kws)
          = Except.ok (Series.item s l)) ∧
    (∀ (s : Series) (kws : List String),
        (Series.index s).find? (fun lb => matchesAll lb kws) = none →
        find_index_label s kws
          = Except.error ⟨kws, s.name, Series.index s⟩) := by
  have base : ∀ (s : Series) (kws : List String),
      find_index_label s kws
        = match (Series.index s).find? (fun lb => matchesAll lb kws) with
          | some l => Except.ok l
          | none => Except.error ⟨kws, s.name, Series.index s⟩ := by
    intro s kws
    exact findLabelGo_eq_find kws _ (Series.index s)
  refine ⟨?_, ?_, ?_⟩
  · intro s kws l h
    rw [base, h]
  · intro s kws l h
    rw [base, h]
    rfl
  · intro s kws h
    rw [base, h]

/-- Witness for C4: on a concrete balance sheet, `{"total","debt"}` finds
`TotalDebt`; on an income statement with no matching label the error names
the keywords, the series and the available labels. -/
theorem c4_witness :
    find_index_label (mkBalFull 20 30 10 150 50) ["total", "debt"]
        = Except.ok "TotalDebt" ∧
    Except.map (Series.item (mkBalFull 20 30 10 150 50))
        (find_index_label (mkBalFull 20 30 10 150 50) ["total", "debt"])
        = Except.ok (Series.item (mkBalFull 20 30 10 150 50) "TotalDebt") ∧
    find_index_label (mkInc 100) ["total", "debt"]
        = Except.error ⟨["total", "debt"], "inc", ["OperatingIncome"]⟩ :=
  ⟨c4_theorem.1 (mkBalFull 20 30 10 150 50) ["total", "debt"] "TotalDebt" rfl,
   c4_theorem.2.1 (mkBalFull 20 30 10 150 50) ["total", "debt"] "TotalDebt" rfl,
   c4_theorem.2.2 (mkInc 100) ["total", "debt"] rfl⟩

/-! ## Claim C5 -/

theorem dao_evaluate_not_nan {env : Dao.DaoEnv} {tkr : String} {r : Dao.DaoRow}
    (h : Dao.evaluate_ticker env tkr = some r) :
    PyFloat.isnan (Dao.DaoRow.roic r) = false ∧
    PyFloat.isnan (Dao.DaoRow.faustmann r) = false := by
  unfold Dao.evaluate_ticker at h
  rcases hinc : Dao.DaoEnv.income env tkr with einc | inc <;> rw [hinc] at h
  · simp at h
  rcases hbal : Dao.DaoEnv.balance env tkr with ebal | bal <;> rw [hbal] at h
  · simp at h
  rcases hcfs : Dao.DaoEnv.cashflow env tkr with ecfs | cfs <;> rw [hcfs] at h
  · simp at h
  simp only [] at h
  by_cases h1 : PyFloat.isnan (Dao.compute_roic inc bal Dao.CFG_TAX_RATE) = true
  · rw [if_pos h1] at h
    exact Option.noConfusion h
  rw [if_neg h1] at h
  by_cases h2 : PyFloat.isnan
      (Dao.compute_faustmann_ratio (Dao.get_market_cap env tkr) bal) = true
  · rw [if_pos h2] at h
    exact Option.noConfusion h
  rw [if_neg h2] at h
  by_cases h3 : (PyFloat.gt (Dao.compute_roic inc bal Dao.CFG_TAX_RATE)
        (PyFloat.fin Dao.CFG_ROIC_THRESHOLD) &&
      PyFloat.lt (Dao.compute_faustmann_ratio (Dao.get_market_cap env tkr) bal)
        (PyFloat.fin Dao.CFG_FR_THRESHOLD)) = true
  · rw [if_pos h3] at h
    obtain rfl := Option.some.inj h
    exact ⟨by simpa using h1, by simpa using h2⟩
  · rw [if_neg h3] at h
    exact Option.noConfusion h

theorem mark_evalStep_some {env : Mark.MarkEnv} {as_of : ℤ} {tkr : String}
    {row : Mark.MarkRow}
    (h : Mark.evalStep env as_of tkr = Except.ok (some row)) :
    PyFloat.gt (Mark.MarkRow.roic row) (PyFloat.fin 1) = true ∧
    PyFloat.lt (Mark.MarkRow.fr row) (PyFloat.fin (7/10)) = true := by
  unfold Mark.evalStep at h
  rcases hl : Mark.MarkEnv.load_financials env tkr with el | ⟨inc, bal, cfs⟩ <;>
    rw [hl] at h
  · simp at h
  simp only [] at h
  rcases hr : Mark.ratios env as_of tkr inc bal with er | ⟨roic, fr⟩ <;>
    rw [hr] at h
  · rcases er with kf | s <;> simp at h
  simp only [] at h
  by_cases hp : (PyFloat.gt roic (PyFloat.fin 1) &&
      PyFloat.lt fr (PyFloat.fin (7/10))) = true
  · rw [if_pos hp] at h
    obtain rfl := Option.some.inj (Except.ok.inj h)
    exact Bool.and_eq_true _ _ ▸ hp
  · rw [if_neg hp] at h
    exact Option.noConfusion (Except.ok.inj h)

theorem mark_screenGo_mem {env : Mark.MarkEnv} {as_of : ℤ} :
    ∀ (l : List String) (acc rows : List Mark.MarkRow),
      Mark.screenGo env as_of l acc = Except.ok rows →
      ∀ r ∈ rows, r ∈ acc ∨
        (PyFloat.gt (Mark.MarkRow.roic r) (PyFloat.fin 1) = true ∧
         PyFloat.lt (Mark.MarkRow.fr r) (PyFloat.fin (7/10)) = true) := by
  intro l
  induction l with
  | nil =>
      intro acc rows h r hr
      cases h
      exact Or.inl hr
  | cons tkr rest ih =>
      intro acc rows h r hr
      unfold Mark.screenGo at h
      rcases hs : Mark.evalStep env as_of tkr with e | o <;> rw [hs] at h
      · simp at h
      rcases o with _ | row
      · exact ih acc rows h r hr
      · rcases ih (acc ++ [row]) rows h r hr with hmem | hpred
        · rcases List.mem_append.mp hmem with ha | hb
          · exact Or.inl ha
          · rcases List.mem_singleton.mp hb with rfl
            exact Or.inr (mark_evalStep_some hs)
        · exact Or.inr hpred

/-- Claim C5: a ticker whose computed ROIC or Faustmann ratio is NaN never
appears in either screener's output, and in Mark's screener the NaN path
returns a skip result rather than an error, so the run is not aborted. -/
theorem c5_theorem :
    (∀ (env : Dao.DaoEnv) (enum : List String) (r : Dao.DaoRow),
        r ∈ Dao.run env enum →
        PyFloat.isnan (Dao.DaoRow.roic r) = false ∧
        PyFloat.isnan (Dao.DaoRow.faustmann r) = false) ∧
    (∀ (env : Mark.MarkEnv) (as_of : ℤ) (tickers : List String)
        (rows : List Mark.MarkRow) (r : Mark.MarkRow),
        Mark.screen_universe env as_of tickers = Except.ok rows → r ∈ rows →
        PyFloat.isnan (Mark.MarkRow.roic r) = false ∧
        PyFloat.isnan (Mark.MarkRow.fr r) = false) ∧
    (∀ (env : Mark.MarkEnv) (as_of : ℤ) (tkr : String) (inc bal cfs : Series)
        (roic fr : PyFloat),
        Mark.MarkEnv.load_financials env tkr = Except.ok (inc, bal, cfs) →
        Mark.ratios env as_of tkr inc bal = Except.ok (roic, fr) →
        (PyFloat.isnan roic = true ∨ PyFloat.isnan fr = true) →
        Mark.evalStep env as_of tkr = Except.ok none) := by
  refine ⟨?_, ?_, ?_⟩
  · intro env enum r hr
    have hr2 : r ∈ enum.filterMap (Dao.evaluate_ticker env) :=
      ((List.perm_insertionSort Dao.rowLe
        (enum.filterMap (Dao.evaluate_ticker env))).mem_iff (a := r)).mp hr
    rcases List.mem_filterMap.mp hr2 with ⟨t, _, ht⟩
    exact dao_evaluate_not_nan ht
  · intro env as_of tickers rows r h hr
    unfold Mark.screen_universe at h
    rcases hg : Mark.screenGo env as_of tickers [] with e | picks <;> rw [hg] at h
    · simp at h
    cases h
    have hr2 : r ∈ picks :=
      ((List.perm_insertionSort Mark.markRowLe picks).mem_iff (a := r)).mp hr
    rcases mark_screenGo_mem tickers [] picks hg r hr2 with hmem | hpred
    · simp at hmem
    · exact ⟨(pyFloat_gt_true_not_nan hpred.1).1, (pyFloat_lt_true_not_nan hpred.2).1⟩
  · intro env as_of tkr inc bal cfs roic fr hl hr hnan
    rcases hnan with hnan | hnan <;> obtain rfl := pyFloat_isnan_true hnan <;>
      simp [Mark.evalStep, hl, hr, PyFloat.gt, PyFloat.lt]

/-- One concrete NaN-skipping environment: operating income is missing
(NaN) in the data, so ROIC is NaN. -/
def envNaN : Mark.MarkEnv :=
  ⟨fun _ => Except.ok (mkIncNaN, mkBalFull 20 30 10 150 50, mkIncNaN),
   fun _ => Except.ok [("marketCap", PyFloat.fin 30)]⟩

/-- Witness for C5: the NaN-ROIC ticker is skipped without aborting. -/
theorem c5_witness : Mark.evalStep envNaN 0 "T" = Except.ok none :=
  c5_theorem.2.2 envNaN 0 "T" mkIncNaN (mkBalFull 20 30 10 150 50) mkIncNaN
    PyFloat.nan (PyFloat.fin (3/10)) rfl (by rfl) (Or.inl rfl)

/-! ## Claim C2 -/

/-- Environment for C2: fundamentals load fine for every ticker, but the
yfinance `info` fetch for ticker `AAA` raises a (non-`KeyError`) network
exception. -/
def envC2 : Mark.MarkEnv :=
  ⟨fun _ => Except.ok (mkInc 200, mkBalFull 20 30 10 150 50, mkInc 200),
   fun t => if t = "AAA" then Except.error (PyErr.otherErr "network")
            else Except.ok [("marketCap", PyFloat.fin 30)]⟩

/-- Claim C2, counterexample: in `Mark_Spitznagelf.screen_universe` a
network exception raised while fetching `AAA`'s market cap is not caught
(the enclosing handler only catches `KeyError`), so the whole run aborts —
even though the remaining ticker `BBB` would have produced a valid
candidate. -/
theorem c2_counterexample :
    Mark.screen_universe envC2 0 ["AAA", "BBB"]
        = Except.error (PyErr.otherErr "network") ∧
    Mark.screen_universe envC2 0 ["BBB"]
        = Except.ok [⟨"BBB", PyFloat.fin (79/20), PyFloat.fin (3/10)⟩] :=
  ⟨by rfl, by rfl⟩

/-- Claim C2, amended: per-ticker fundamentals-load failures are caught in
both screeners (the ticker is skipped, the run continues), and `KeyError`
(missing-field) failures in the ratio block of Mark's screener are likewise
caught; but any non-`KeyError` exception in that block — e.g. a network
failure while fetching the market cap — propagates out of
`Mark_Spitznagelf.screen_universe` and aborts the run.  Only
`Dao_of_capital`'s screener catches every per-ticker exception. -/
theorem c2_amended_theorem :
    (∀ (env : Dao.DaoEnv) (tkr : String) (e : PyErr),
        Dao.DaoEnv.income env tkr = Except.error e →
        Dao.evaluate_ticker env tkr = none) ∧
    (∀ (env : Mark.MarkEnv) (as_of : ℤ) (tkr : String) (e : PyErr),
        Mark.MarkEnv.load_financials env tkr = Except.error e →
        Mark.evalStep env as_of tkr = Except.ok none) ∧
    (∀ (env : Mark.MarkEnv) (as_of : ℤ) (tkr : String) (inc bal cfs : Series)
        (kf : FieldNotFound),
        Mark.MarkEnv.load_financials env tkr = Except.ok (inc, bal, cfs) →
        Mark.ratios env as_of tkr inc bal = Except.error (PyErr.keyErr kf) →
        Mark.evalStep env as_of tkr = Except.ok none) ∧
    (∀ (env : Mark.MarkEnv) (as_of : ℤ) (tkr : String) (e : PyErr),
        Mark.evalStep env as_of tkr = Except.error e →
        ∃ s, e = PyErr.otherErr s) := by
  refine ⟨?_, ?_, ?_, ?_⟩
  · intro env tkr e h
    simp [Dao.evaluate_ticker, h]
  · intro env as_of tkr e h
    simp [Mark.evalStep, h]
  · intro env as_of tkr inc bal cfs kf h1 h2
    simp [Mark.evalStep, h1, h2]
  · intro env as_of tkr e h
    unfold Mark.evalStep at h
    rcases hl : Mark.MarkEnv.load_financials env tkr with el | ⟨inc, bal, cfs⟩ <;>
      rw [hl] at h
    · simp at h
    simp only [] at h
    rcases hr : Mark.ratios env as_of tkr inc bal with er | ⟨roic, fr⟩ <;>
      rw [hr] at h
    · rcases er with kf | s
      · simp at h
      · exact ⟨s, (Except.error.inj h).symm⟩
    · simp only [] at h
      exact Except.noConfusion h

/-- A Dao environment whose income load always raises. -/
def envFailDao : Dao.DaoEnv :=
  ⟨fun _ => Except.error (PyErr.otherErr "boom"),
   fun _ => Except.ok (mkBalFull 20 30 10 150 50),
   fun _ => Except.ok (mkInc 200), fun _ => Except.ok []⟩

/-- A Mark environment whose fundamentals load always raises. -/
def envFailMark : Mark.MarkEnv :=
  ⟨fun _ => Except.error (PyErr.otherErr "down"), fun _ => Except.ok []⟩

/-- Witness for the amended C2: concrete load failures are skipped, not
fatal, in both screeners. -/
theorem c2_amended_witness :
    Dao.evaluate_ticker envFailDao "TKR" = none ∧
    Mark.evalStep envFailMark 0 "TKR" = Except.ok none :=
  ⟨c2_amended_theorem.1 envFailDao "TKR" (PyErr.otherErr "boom") rfl,
   c2_amended_theorem.2.1 envFailMark 0 "TKR" (PyErr.otherErr "down") rfl⟩

/-! ## Claim C6 -/

/-- Environment for C6: every ticker has identical data, so all candidates
tie on the Faustmann ratio (1/2). -/
def envC6 : Dao.DaoEnv :=
  ⟨fun _ => Except.ok (mkInc 200), fun _ => Except.ok (mkBalFull 50 50 0 200 100),
   fun _ => Except.ok (mkInc 200), fun _ => Except.ok [("marketCap", PyFloat.fin 50)]⟩

/-- Claim C6, counterexample: `SiegfriedScreener.__init__` stores
`list(set(universe))`, and `["BBB", "AAA"]` is a legal enumeration of the
set of the input universe `["AAA", "BBB"]`; on it the screener emits the
two equal-ratio candidates in the order `BBB, AAA`, the opposite of their
input order — so the stable-on-input-order tie-break does not hold. -/
theorem c6_counterexample :
    Dao.IsSetEnum ["AAA", "BBB"] ["BBB", "AAA"] ∧
    List.map Dao.DaoRow.ticker (Dao.run envC6 ["BBB", "AAA"]) = ["BBB", "AAA"] ∧
    List.map Dao.DaoRow.faustmann (Dao.run envC6 ["BBB", "AAA"])
        = [PyFloat.fin (1/2), PyFloat.fin (1/2)] ∧
    List.indexOf "AAA" ["AAA", "BBB"] < List.indexOf "BBB" ["AAA", "BBB"] := by
  refine ⟨⟨by decide, ?_⟩, by rfl, by rfl, by decide⟩
  intro t
  simp [or_comm]

/-- Claim C6, amended: both screeners do return their candidates sorted
ascending by Faustmann ratio, but the tie order for equal ratios is not
the input-universe order: the Dao screener first funnels the universe
through an unordered Python set (see the counterexample), and
`pandas.sort_values` is used with its default non-stable sort kind. -/
theorem c6_amended_theorem :
    (∀ (env : Dao.DaoEnv) (enum : List String),
        List.Sorted Dao.rowLe (Dao.run env enum)) ∧
    (∀ (env : Mark.MarkEnv) (as_of : ℤ) (tickers : List String)
        (rows : List Mark.MarkRow),
        Mark.screen_universe env as_of tickers = Except.ok rows →
        List.Sorted Mark.markRowLe rows) := by
  constructor
  · intro env enum
    exact List.sorted_insertionSort Dao.rowLe _
  · intro env as_of tickers rows h
    unfold Mark.screen_universe at h
    rcases hg : Mark.screenGo env as_of tickers [] with e | picks <;> rw [hg] at h
    · simp at h
    cases h
    exact List.sorted_insertionSort Mark.markRowLe picks

/-! ## Claim C10 -/

/-- Environment for C10: ticker `POS` has market cap 30; ticker `MISS` has
an `info` record with no `marketCap` entry at all.  Both have positive net
worth 100 and screening-passing ROIC. -/
def envC10 : Mark.MarkEnv :=
  ⟨fun _ => Except.ok (mkInc 100, mkBalFull 20 30 10 150 50, mkInc 100),
   fun t => if t = "POS" then Except.ok [("marketCap", PyFloat.fin 30)]
            else Except.ok []⟩

/-- Witness for the amended C6: a concrete sorted output of Mark's
screener. -/
theorem c6_amended_witness :
    List.Sorted Mark.markRowLe
      [⟨"MISS", PyFloat.fin (79/40), PyFloat.fin 0⟩,
       ⟨"POS", PyFloat.fin (79/40), PyFloat.fin (3/10)⟩] :=
  c6_amended_theorem.2 envC10 0 ["POS", "MISS"]
    [⟨"MISS", PyFloat.fin (79/40), PyFloat.fin 0⟩,
     ⟨"POS", PyFloat.fin (79/40), PyFloat.fin (3/10)⟩] (by rfl)

/-- Claim C10: `get_market_cap` in `Collect_data_mini.py` and
`Mark_Spitznagelf.py` returns 0 (not a missing value) when the `info`
record lacks a `marketCap` entry; with positive net worth the Faustmann
ratio of such a ticker is exactly 0, which is below any positive threshold,
so with passing ROIC the ticker is included — and, the output being sorted
ascending, it sorts ahead of every candidate with a positive ratio (ticker
`MISS` precedes `POS` even though the input order was `POS, MISS`). -/
theorem c10_theorem :
    (∀ (env : Mark.MarkEnv) (tkr : String) (d : ℤ)
        (info : List (String × PyFloat)),
        Mark.MarkEnv.yf_info env tkr = Except.ok info →
        info.lookup "marketCap" = none →
        Mark.get_market_cap env tkr d = Except.ok (PyFloat.fin 0)) ∧
    (∀ (env : String → Except PyErr (List (String × PyFloat))) (tkr : String)
        (info : List (String × PyFloat)),
        env tkr = Except.ok info → info.lookup "marketCap" = none →
        Collect.get_market_cap env tkr = Except.ok (PyFloat.fin 0)) ∧
    (∀ a l : ℚ, 0 < a - l →
        Mark.compute_faustmann (PyFloat.fin 0) (mkBalAL a l)
            = Except.ok (PyFloat.fin 0)) ∧
    (∀ thr : ℚ, 0 < thr →
        PyFloat.lt (PyFloat.fin 0) (PyFloat.fin thr) = true) ∧
    Mark.screen_universe envC10 0 ["POS", "MISS"]
        = Except.ok [⟨"MISS", PyFloat.fin (79/40), PyFloat.fin 0⟩,
            ⟨"POS", PyFloat.fin (79/40), PyFloat.fin (3/10)⟩] := by
  refine ⟨?_, ?_, ?_, ?_, by rfl⟩
  · intro env tkr d info h1 h2
    simp [Mark.get_market_cap, h1, h2]
  · intro env tkr info h1 h2
    simp [Collect.get_market_cap, h1, h2]
  · intro a l h
    rw [mark_faustmann_eval, pyFloat_div_fin_fin h.ne', zero_div]
  · intro thr h
    simp [PyFloat.lt, h]

/-- Witness for C10 at concrete inputs: the `MISS` ticker's market cap
defaults to 0 and its ratio is 0, below the 0.7 threshold. -/
theorem c10_witness :
    Mark.get_market_cap envC10 "MISS" 0 = Except.ok (PyFloat.fin 0) ∧
    Mark.compute_faustmann (PyFloat.fin 0) (mkBalAL 150 50)
        = Except.ok (PyFloat.fin 0) ∧
    PyFloat.lt (PyFloat.fin 0) (PyFloat.fin (7/10)) = true :=
  ⟨c10_theorem.1 envC10 "MISS" 0 [] (by rfl) rfl,
   c10_theorem.2.2.1 150 50 (by norm_num),
   c10_theorem.2.2.2.1 (7/10) (by norm_num)⟩

/-! ## Claim C8 -/

/-- Environment for C8: ticker `NEG` has assets 50, liabilities 100 (net
worth −50), market cap 10, and a passing ROIC of 79/40. -/
def envC8 : Mark.MarkEnv :=
  ⟨fun _ => Except.ok (mkInc 100, mkBalFull 20 30 10 50 100, mkInc 100),
   fun _ => Except.ok [("marketCap", PyFloat.fin 10)]⟩

/-- Dao-side environment with the same `NEG` data. -/
def envC8dao : Dao.DaoEnv :=
  ⟨fun _ => Except.ok (mkInc 100), fun _ => Except.ok (mkBalFull 20 30 10 50 100),
   fun _ => Except.ok (mkInc 100), fun _ => Except.ok [("marketCap", PyFloat.fin 10)]⟩

/-- Claim C8: the code contradicts the spec's requirement — a ticker with
negative net worth (assets 50, liabilities 100) gets the negative Faustmann
ratio −1/5, which trivially satisfies `< 0.7` (and `< 0.75`), and both
screeners silently include it as a candidate with no separate flagging. -/
theorem c8_theorem :
    Mark.screen_universe envC8 0 ["NEG"]
        = Except.ok [⟨"NEG", PyFloat.fin (79/40), PyFloat.fin (-(1/5))⟩] ∧
    Dao.run envC8dao ["NEG"]
        = [⟨"NEG", PyFloat.fin (79/40), PyFloat.fin (-(1/5))⟩] ∧
    ((50 : ℚ) - 100 < 0 ∧ (-(1/5) : ℚ) < 7/10 ∧ (-(1/5) : ℚ) < 3/4) :=
  ⟨by rfl, by rfl, by norm_num⟩
